import Mathlib

/-!
Verification of the Edge Fair Scheduler (EFS) core against its
natural-language specification.  The definitions below are a shallow
embedding of the Python sources `EFS.py`, `Scheduler.py` and `Monitor.py`:
the SQLite tables become lists, the SQL queries become list operations,
Python floats become rationals, and the Docker runtime becomes an explicit
oracle of call outcomes.  Every definition is translated from the source
code; spec-side definitions used for refinement statements are prefixed
with `spec_`.
-/

/-- A row of the `job_queue` / `jobs` tables (`EFS.py`, `setup_db`):
`id, cust_name, cust_ip, cust_port, priority, timestamp, ports`.
Timestamps are seconds since an arbitrary epoch. -/
structure Job where
  id : Nat
  cust_name : String
  cust_ip : String
  cust_port : Nat
  priority : Int
  timestamp : Nat
  ports : String
  deriving DecidableEq, Repr

/-- The persistent store `edge.db`: waiting queue, history, termination
queue, and the `SQLITE_SEQUENCE` entry for `job_queue` (the largest id the
AUTOINCREMENT column has ever handed out; SQLite assigns `seq + 1` to the
next inserted row and bumps `seq`). -/
structure DB where
  job_queue : List Job
  jobs : List Job
  term_queue : List (Nat × String)
  seq : Nat
  deriving DecidableEq, Repr

/-- Replies sent to the client by the request handler (`EFS.py`).
`accepted rt i` is `{"Msg":"Accepted","RequestType":rt,"JobID":i}`,
`refused r` is `{"Msg":"Refused","Reason":r}`, and
`terminated i r` is `{"Msg":"Terminated","JobId":i,"Reason":r}`. -/
inductive Reply where
  | accepted (requestType : String) (jobID : Nat)
  | refused (reason : String)
  | terminated (jobId : Nat) (reason : String)
  deriving DecidableEq, Repr

/-- The `Job` object of a `New Job` request:
`{"Job":{"Priority":p,"Ports":ps,"CommsPort":cp}}`. -/
structure NewJobRequest where
  priority : Int
  ports : String
  commsPort : Nat
  deriving DecidableEq, Repr

/-- `setup_db` (`EFS.py`): fresh database with empty tables and the
`job_queue` AUTOINCREMENT sequence seeded at 1000. -/
def setup_db : DB :=
  { job_queue := [], jobs := [], term_queue := [], seq := 1000 }

/-- `add_new_job` (`EFS.py` lines 138-174): reads the queue size, inserts
and replies `Accepted` when `q_len <= MAX_QUEUE`, otherwise replies
`Refused`.  The inserted row receives id `seq + 1` (SQLite AUTOINCREMENT)
and that id is echoed back via `last_insert_rowid()`. -/
def add_new_job (maxQueue : Nat) (db : DB) (client ip : String)
    (req : NewJobRequest) (now : Nat) : DB × Reply :=
  let q_len := db.job_queue.length
  if q_len ≤ maxQueue then
    let job_id := db.seq + 1
    let row : Job :=
      { id := job_id, cust_name := client, cust_ip := ip,
        cust_port := req.commsPort, priority := req.priority,
        timestamp := now, ports := req.ports }
    ({ db with job_queue := db.job_queue ++ [row], seq := job_id },
     Reply.accepted "Start" job_id)
  else
    (db, Reply.refused "No space in job queue")

/-- `terminate_job` (`EFS.py` lines 177-209): if the id still has a row in
`job_queue` the row is deleted and the reply is `Terminated`; otherwise a
`term_queue` row is inserted and the reply is `Accepted`. -/
def terminate_job (db : DB) (job_id : Nat) : DB × Reply :=
  let count := db.job_queue.countP (fun j => j.id == job_id)
  if count > 0 then
    ({ db with job_queue := db.job_queue.filter (fun j => j.id != job_id) },
     Reply.terminated job_id "Termination Requested")
  else
    ({ db with term_queue := db.term_queue ++ [(job_id, "Termination Requested")] },
     Reply.accepted "Terminate" job_id)

/-- Python's `min(iterable, key=f)` specialised to a nonempty list given as
head and tail: left fold keeping the earliest element with the strictly
smallest key. -/
def pickMinBy {α : Type} (f : α → Nat) (x : α) (l : List α) : α :=
  l.foldl (fun best y => if f y < f best then y else best) x

lemma pickMinBy_cons {α : Type} (f : α → Nat) (x y : α) (ys : List α) :
    pickMinBy f x (y :: ys) = pickMinBy f (if f y < f x then y else x) ys := rfl

lemma pickMinBy_mem {α : Type} (f : α → Nat) :
    ∀ (l : List α) (x : α), pickMinBy f x l = x ∨ pickMinBy f x l ∈ l := by
  intro l
  induction l with
  | nil => intro x; exact Or.inl rfl
  | cons y ys ih =>
    intro x
    rw [pickMinBy_cons]
    rcases ih (if f y < f x then y else x) with h | h
    · by_cases hc : f y < f x
      · right; rw [h, if_pos hc]; exact List.mem_cons_self _ _
      · left; rw [h, if_neg hc]
    · right; exact List.mem_cons_of_mem _ h

lemma pickMinBy_le {α : Type} (f : α → Nat) :
    ∀ (l : List α) (x : α) (y : α), (y = x ∨ y ∈ l) →
      f (pickMinBy f x l) ≤ f y := by
  intro l
  induction l with
  | nil =>
    intro x y hy
    rcases hy with rfl | h
    · exact le_rfl
    · cases h
  | cons z zs ih =>
    intro x y hy
    rw [pickMinBy_cons]
    have hbase : f (if f z < f x then z else x) ≤ f x ∧
        f (if f z < f x then z else x) ≤ f z := by
      by_cases hc : f z < f x
      · rw [if_pos hc]; exact ⟨le_of_lt hc, le_rfl⟩
      · rw [if_neg hc]; exact ⟨le_rfl, le_of_not_lt hc⟩
    rcases hy with rfl | hy
    · exact le_trans (ih _ _ (Or.inl rfl)) hbase.1
    · rcases List.mem_cons.mp hy with rfl | hy
      · exact le_trans (ih _ _ (Or.inl rfl)) hbase.2
      · exact ih _ _ (Or.inr hy)

/-- Rows of the `jobs` history table whose timestamp lies inside the
rolling 7-day window: `timestamp >= date('now','-7 day')` with
`cutoff = now - 7 days`. -/
def recentJobs (db : DB) (cutoff : Nat) : List Job :=
  db.jobs.filter (fun j => cutoff ≤ j.timestamp)

/-- `SELECT COUNT(*) FROM jobs WHERE timestamp>=date('now','-7 day')`. -/
def histTotal (db : DB) (cutoff : Nat) : Nat :=
  (recentJobs db cutoff).length

/-- `SELECT COUNT(*) ... AND priority=?`. -/
def histCountPriority (db : DB) (cutoff : Nat) (p : Int) : Nat :=
  ((recentJobs db cutoff).filter (fun j => j.priority == p)).length

/-- `SELECT COUNT(*) ... AND cust_name=?`. -/
def histCountClient (db : DB) (cutoff : Nat) (c : String) : Nat :=
  ((recentJobs db cutoff).filter (fun j => j.cust_name == c)).length

/-- `SELECT COUNT(*) ... AND cust_name=? AND priority=?`. -/
def histCountClientPriority (db : DB) (cutoff : Nat) (c : String) (p : Int) : Nat :=
  ((recentJobs db cutoff).filter
    (fun j => j.cust_name == c && j.priority == p)).length

/-- One step of a descending insertion sort. -/
def insertDesc (x : Int) : List Int → List Int
  | [] => [x]
  | y :: ys => if y ≤ x then x :: y :: ys else y :: insertDesc x ys

/-- Python's `sorted(s, reverse=True)`: the elements arranged in descending
order. -/
def sortDesc : List Int → List Int
  | [] => []
  | x :: xs => insertDesc x (sortDesc xs)

lemma mem_insertDesc {x a : Int} {l : List Int} :
    x ∈ insertDesc a l ↔ x = a ∨ x ∈ l := by
  induction l with
  | nil => simp [insertDesc]
  | cons y ys ih =>
    by_cases hc : y ≤ a
    · simp [insertDesc, hc]
    · simp [insertDesc, hc, ih]
      tauto

lemma mem_sortDesc {x : Int} {l : List Int} : x ∈ sortDesc l ↔ x ∈ l := by
  induction l with
  | nil => simp [sortDesc]
  | cons y ys ih => simp [sortDesc, mem_insertDesc, ih]

lemma pairwise_insertDesc {a : Int} {l : List Int}
    (h : List.Pairwise (fun p q => q ≤ p) l) :
    List.Pairwise (fun p q => q ≤ p) (insertDesc a l) := by
  induction l with
  | nil => simp [insertDesc]
  | cons y ys ih =>
    rcases List.pairwise_cons.mp h with ⟨hy, hys⟩
    by_cases hc : y ≤ a
    · rw [insertDesc, if_pos hc]
      refine List.pairwise_cons.mpr ⟨?_, h⟩
      intro z hz
      rcases List.mem_cons.mp hz with rfl | hz
      · exact hc
      · exact le_trans (hy z hz) hc
    · rw [insertDesc, if_neg hc]
      refine List.pairwise_cons.mpr ⟨?_, ih hys⟩
      intro z hz
      rcases mem_insertDesc.mp hz with rfl | hz
      · exact le_of_lt (lt_of_not_le hc)
      · exact hy z hz

lemma pairwise_sortDesc (l : List Int) :
    List.Pairwise (fun p q => q ≤ p) (sortDesc l) := by
  induction l with
  | nil => exact List.Pairwise.nil
  | cons y ys ih => exact pairwise_insertDesc ih

/-- The fixed weight table `priority_weighted = {3: 0.5, 2: 0.35, 1: 0.15}`
(`Scheduler.get_next_priority`); a dict lookup on any other key raises
`KeyError`, hence `Option`. -/
def priority_weighted (p : Int) : Option ℚ :=
  if p = 3 then some (1/2)
  else if p = 2 then some (7/20)
  else if p = 1 then some (3/20)
  else none

/-- `Scheduler.select_priority` (lines 223-244), recursion over the suffix
of the waiting list that starts at `index` (the Python recursion advances
`index` by one per call, so the visited suffix shrinks by one element):
return the first priority whose frequency is under its weight, else the
head of the full list once the last index is reached.  A missing
weight-table key is the Python `KeyError`, and the empty-list case is the
`IndexError` from `waiting[index]`; both are `Except.error`. -/
def select_priority_go (full : List Int) (f : Int → ℚ)
    (wt : Int → Option ℚ) : List Int → Except Unit Int
  | [] => Except.error ()
  | p :: rest =>
    match wt p with
    | none => Except.error ()
    | some w =>
      if f p < w then Except.ok p
      else
        match rest with
        | [] =>
          match full with
          | [] => Except.error ()
          | q :: _ => Except.ok q
        | _ :: _ => select_priority_go full f wt rest

/-- `Scheduler.select_priority(waiting, freq, weighted)` called at
`index = 0`. -/
def select_priority (waiting : List Int) (f : Int → ℚ)
    (wt : Int → Option ℚ) : Except Unit Int :=
  select_priority_go waiting f wt waiting

/-- The observed 7-day frequency of a waiting priority computed by
`get_next_priority`: `count/total_freq` when both counts are positive,
else `0.0`. -/
def priorityFreq (db : DB) (cutoff : Nat) (p : Int) : ℚ :=
  let c := histCountPriority db cutoff p
  let t := histTotal db cutoff
  if 0 < c ∧ 0 < t then (c : ℚ) / t else 0

/-- `sorted(set(priorities of job_queue), reverse=True)`. -/
def waitingPrioritiesDesc (db : DB) : List Int :=
  sortDesc ((db.job_queue.map Job.priority).dedup)

/-- `Scheduler.get_next_priority` (lines 189-221). -/
def get_next_priority (db : DB) (cutoff : Nat) : Except Unit Int :=
  select_priority (waitingPrioritiesDesc db) (priorityFreq db cutoff)
    priority_weighted

/-- `set(cust_name of job_queue)`; the Python set order is arbitrary, the
model fixes one enumeration of the distinct names. -/
def waitingClients (db : DB) : List String :=
  (db.job_queue.map Job.cust_name).dedup

/-- `Scheduler.get_next_client(priority=False)` (lines 145-187):
`min(client_freq, key=client_freq.get)` over the distinct waiting
clients, i.e. the first client attaining the least 7-day history count.
`min` of an empty dict raises `ValueError`, hence `Option`. -/
def get_next_client (db : DB) (cutoff : Nat) : Option String :=
  match waitingClients db with
  | [] => none
  | c :: rest => some (pickMinBy (histCountClient db cutoff) c rest)

/-- `SELECT * ... ORDER BY datetime(timestamp) ASC LIMIT 1`: the earliest
row by timestamp (first such row in table order on ties). -/
def minByTimestamp : List Job → Option Job
  | [] => none
  | j :: rest => some (pickMinBy Job.timestamp j rest)

/-- The atomic move `INSERT INTO jobs SELECT * FROM job_queue WHERE id=?;
DELETE FROM job_queue WHERE id=?` performed by every `get_next_job*`. -/
def moveToHistory (db : DB) (job_id : Nat) : DB :=
  { db with
      jobs := db.jobs ++ db.job_queue.filter (fun j => j.id == job_id),
      job_queue := db.job_queue.filter (fun j => j.id != job_id) }

/-- `Scheduler.get_next_job` (strategy 0, lines 246-263). -/
def get_next_job (db : DB) : Option (Job × DB) :=
  match minByTimestamp db.job_queue with
  | none => none
  | some j => some (j, moveToHistory db j.id)

/-- `Scheduler.get_next_job_clients` (strategy 1, lines 265-286). -/
def get_next_job_clients (db : DB) (cutoff : Nat) : Option (Job × DB) :=
  match get_next_client db cutoff with
  | none => none
  | some c =>
    match minByTimestamp (db.job_queue.filter (fun j => j.cust_name == c)) with
    | none => none
    | some j => some (j, moveToHistory db j.id)

/-- `Scheduler.get_next_job_priority` (strategy 2, lines 288-309); a
`KeyError` escaping `get_next_priority` propagates. -/
def get_next_job_priority (db : DB) (cutoff : Nat) :
    Except Unit (Option (Job × DB)) :=
  match get_next_priority db cutoff with
  | Except.error e => Except.error e
  | Except.ok p =>
    Except.ok
      (match minByTimestamp (db.job_queue.filter (fun j => j.priority == p)) with
       | none => none
       | some j => some (j, moveToHistory db j.id))

/-- `Scheduler.get_next_client(priority=True)`: restrict the waiting
clients and the history counts to the priority chosen by
`get_next_priority`. -/
def get_next_client_priority (db : DB) (cutoff : Nat) :
    Except Unit (Option (String × Int)) :=
  match get_next_priority db cutoff with
  | Except.error e => Except.error e
  | Except.ok p =>
    match ((db.job_queue.filter (fun j => j.priority == p)).map
        Job.cust_name).dedup with
    | [] => Except.ok none
    | c :: rest =>
      Except.ok (some (pickMinBy (fun d => histCountClientPriority db cutoff d p) c rest, p))

/-- `Scheduler.get_next_job_priority_client` (strategy 3, lines 311-332). -/
def get_next_job_priority_client (db : DB) (cutoff : Nat) :
    Except Unit (Option (Job × DB)) :=
  match get_next_client_priority db cutoff with
  | Except.error e => Except.error e
  | Except.ok none => Except.ok none
  | Except.ok (some (c, p)) =>
    Except.ok
      (match minByTimestamp (db.job_queue.filter
          (fun j => j.cust_name == c && j.priority == p)) with
       | none => none
       | some j => some (j, moveToHistory db j.id))

/-- The strategy switch at the top of `Scheduler.start_job`
(lines 450-457). -/
def dispatch (strategy : Nat) (db : DB) (cutoff : Nat) :
    Except Unit (Option (Job × DB)) :=
  if strategy = 0 then Except.ok (get_next_job db)
  else if strategy = 1 then Except.ok (get_next_job_clients db cutoff)
  else if strategy = 2 then get_next_job_priority db cutoff
  else get_next_job_priority_client db cutoff

/-- `random.randint(lower, upper)` driven by an external seed: a value in
`[lower, upper]` (inclusive on both ends) whenever `lower ≤ upper`. -/
def randint (lower upper seed : Nat) : Nat :=
  lower + seed % (upper + 1 - lower)

/-- Python's `==` between the `int` port drawn by `random.randint` and one
`HostPort` value from `inspect_container`.  `Scheduler.get_used_ports`
(lines 396-398) collects `ports[port][0]['HostPort']`, which the Docker
Engine API returns as a JSON **string** (e.g. `'5000'`), while the drawn
port is an `int`; in Python an int never equals a str, so this comparison
is constantly `False` and the membership test `port not in used_ports`
always succeeds. -/
def py_eq_int_str (_port : Nat) (_hostPort : String) : Bool := false

/-- The `while len(ports) < num` loop of `Scheduler.get_free_ports`
(lines 356-378): draw a random port and test `port not in used_ports`,
where `used_ports` is the list of string `HostPort` values of the running
containers and the test compares each with Python `==`
(`py_eq_int_str`, constantly false — the exclusion is a no-op in the
program).  The Python loop need not terminate, so the model takes a fuel
bound and returns `none` when the fuel runs out before `num` ports were
collected.  `stream i` is the seed of the i-th draw. -/
def get_free_ports_go (lower upper : Nat) (used : List String) (num : Nat)
    (stream : Nat → Nat) : Nat → Nat → List Nat → Option (List Nat)
  | 0, _, acc => if acc.length < num then none else some acc
  | fuel + 1, i, acc =>
    if acc.length < num then
      let port := randint lower upper (stream i)
      if used.any (py_eq_int_str port) then
        get_free_ports_go lower upper used num stream fuel (i + 1) acc
      else
        get_free_ports_go lower upper used num stream fuel (i + 1) (acc ++ [port])
    else some acc

/-- `Scheduler.get_free_ports(num)` with the currently used host ports
(string `HostPort` values, per `get_used_ports`) passed in; the Python
reads them from the Docker runtime. -/
def get_free_ports (lower upper : Nat) (used : List String) (num : Nat)
    (stream : Nat → Nat) (fuel : Nat) : Option (List Nat) :=
  get_free_ports_go lower upper used num stream fuel 0 []

/-- Python's `s.split(',')` on the character list: cut at every comma;
the empty string yields `[""]`, like Python. -/
def split_comma_go : List Char → List Char → List String
  | [], acc => [String.mk acc]
  | c :: cs, acc =>
    if c = ',' then String.mk acc :: split_comma_go cs []
    else split_comma_go cs (acc ++ [c])

/-- `ports.split(',')` of `Scheduler.map_ports`. -/
def split_comma (s : String) : List String :=
  split_comma_go s.data []

/-- `Scheduler.map_ports(ports)` (lines 402-426): split the requested
ports string on commas, append `"22"`, allocate as many host ports, and
pair them up positionally. -/
def map_ports (lower upper : Nat) (used : List String) (ports : String)
    (stream : Nat → Nat) (fuel : Nat) : Option (List (String × Nat)) :=
  let req_ports := split_comma ports ++ ["22"]
  match get_free_ports lower upper used req_ports.length stream fuel with
  | none => none
  | some free => some (req_ports.zip free)

/-- Outcome of one `containers.run` call of the Docker runtime: a started
container (named by the job id) or a raised `docker.errors.APIError`. -/
inductive RunResult where
  | ok (container : Nat)
  | apiError
  deriving DecidableEq, Repr

/-- `self.dockr.containers.run(...)`: returns the container or raises
`APIError`. -/
def runtime_run (r : RunResult) : Except Unit Nat :=
  match r with
  | RunResult.ok c => Except.ok c
  | RunResult.apiError => Except.error ()

/-- `Scheduler.start_container` (lines 428-444): call `containers.run` and
catch `docker.errors.APIError`, returning `None` in that case.  Because the
only exception the runtime raises here is `APIError` and it is caught, the
function is total: no exception escapes to the caller. -/
def start_container (r : RunResult) : Option Nat :=
  match runtime_run r with
  | Except.ok c => some c
  | Except.error _ => none

/-- Result of the container-launch section of `Scheduler.start_job`
(lines 469-490): the final container if any, whether the client was
notified, whether `Unable to start the job` was logged, the port map used
by each `containers.run` attempt in order, and the database (which this
section never writes: the job was already moved to history and is never
re-enqueued). -/
structure StartOutcome where
  db : DB
  container : Option Nat
  notified : Bool
  loggedUnable : Bool
  attemptPorts : List (List (String × Nat))
  deriving DecidableEq, Repr

/-- The launch section of `Scheduler.start_job`:

    try: container = self.start_container(job[0], ports_dict)
    except docker.errors.APIError:
        self.dockr = docker.from_env()
        container = self.start_container(job[0], ports_dict)
    if container is None:
        ports_dict = self.map_ports(job[6])
        container = self.start_container(job[0], ports_dict)

`r1` is the runtime outcome of the first attempt, `retrySame` the outcome
the rebuilt-handle retry with the same port map `pm1` would observe, and
`r2` the outcome of the attempt with the re-allocated port map `pm2`.  The
`except` arm is modelled faithfully, but `start_container` already catches
`APIError` and returns an `Option`, so the `try` never raises and the arm
is dead code. -/
def start_job_launch (db : DB) (r1 retrySame r2 : RunResult)
    (pm1 pm2 : List (String × Nat)) : StartOutcome :=
  let tryResult : Except Unit (Option Nat) := Except.ok (start_container r1)
  let afterTry : Option Nat × List (List (String × Nat)) :=
    match tryResult with
    | Except.ok c => (c, [pm1])
    | Except.error _ => (start_container retrySame, [pm1, pm1])
  match afterTry.1 with
  | some c =>
    { db := db, container := some c, notified := true,
      loggedUnable := false, attemptPorts := afterTry.2 }
  | none =>
    match start_container r2 with
    | some c =>
      { db := db, container := some c, notified := true,
        loggedUnable := false, attemptPorts := afterTry.2 ++ [pm2] }
    | none =>
      { db := db, container := none, notified := false,
        loggedUnable := true, attemptPorts := afterTry.2 ++ [pm2] }

/-- A CPU sample of one container: `total_usage` and `system_cpu_usage`
from `container.stats(stream=False)`.  Python floats become rationals. -/
structure CpuTimes where
  total : ℚ
  system : ℚ
  deriving DecidableEq, Repr

/-- A running container as the Monitor sees it: its name (the job id),
its uptime in seconds at sampling time, and its CPU sample. -/
structure ContainerInfo where
  name : Nat
  uptimeSeconds : ℚ
  stats : CpuTimes
  deriving DecidableEq, Repr

/-- `Monitor.get_cpu_stats` (lines 117-145): sample exactly the containers
whose uptime exceeds 60 seconds, keyed by `int(container.name)`. -/
def get_cpu_stats (cs : List ContainerInfo) : List (Nat × CpuTimes) :=
  (cs.filter (fun c => decide (60 < c.uptimeSeconds))).map
    (fun c => (c.name, c.stats))

/-- Python `i in previous` / `previous[i]` on the stats dict. -/
def lookupStat (l : List (Nat × CpuTimes)) (i : Nat) : Option CpuTimes :=
  (l.find? (fun e => e.1 == i)).map (fun e => e.2)

/-- `Monitor.calculate_percentages` (lines 147-173). -/
def calculate_percentages (cores : Nat) (current previous : List (Nat × CpuTimes)) :
    List (Nat × ℚ) :=
  current.map (fun e =>
    match lookupStat previous e.1 with
    | some prev =>
      let total_delta := e.2.total - prev.total
      let system_delta := e.2.system - prev.system
      if 0 < total_delta ∧ 0 < system_delta then
        (e.1, total_delta / system_delta * 100 * cores)
      else (e.1, 0)
    | none => (e.1, 100))

/-- `Monitor.check_for_idle_containers` (lines 175-192): the containers
whose percentage is strictly below 10. -/
def check_for_idle_containers (cores : Nat)
    (current previous : List (Nat × CpuTimes)) : List Nat :=
  (calculate_percentages cores current previous).filterMap
    (fun e => if e.2 < 10 then some e.1 else none)

/-- `Monitor.queue_for_termination` (lines 38-49) with reason
`Container Idle`. -/
def queue_for_termination (db : DB) (containers : List Nat) : DB :=
  { db with term_queue :=
      db.term_queue ++ containers.map (fun c => (c, "Container Idle")) }

/-- One idleness-scan iteration of `Monitor.run` (lines 203-222).
`sample` is `Except.ok (cs1, cs2)` when both `get_cpu_stats` calls succeed
(`cs1` the first sample, `cs2` the one taken 10 seconds later) and
`Except.error` when a `docker.errors.APIError` interrupts sampling.
`prevIdle` is the value the Python local variable `idle` holds from the
previous iteration (`none` on the first iteration, when it is unbound).
On an API error the handler rebuilds the Docker handle and falls through
to `if len(idle) > 0: self.queue_for_termination(idle)`, which re-reads
the stale `idle` — or raises `NameError` (modelled as `Except.error`) on
the first iteration.  The result carries the updated database and the
value of `idle` after the iteration. -/
def monitor_scan (db : DB) (cores : Nat)
    (sample : Except Unit (List ContainerInfo × List ContainerInfo))
    (prevIdle : Option (List Nat)) : Except Unit (DB × List Nat) :=
  match sample with
  | Except.ok (cs1, cs2) =>
    let previous := get_cpu_stats cs1
    let current := get_cpu_stats cs2
    let idle := check_for_idle_containers cores current previous
    Except.ok
      (if 0 < idle.length then queue_for_termination db idle else db, idle)
  | Except.error _ =>
    match prevIdle with
    | none => Except.error ()
    | some idle =>
      Except.ok
        (if 0 < idle.length then queue_for_termination db idle else db, idle)

/-- An externally triggered operation on the store: a `New Job` request, a
`Terminate` request, or one scheduler dispatch. -/
inductive Op where
  | newJob (client ip : String) (req : NewJobRequest) (now : Nat)
  | terminate (job_id : Nat)
  | dispatchJob (strategy : Nat) (cutoff : Nat)
  deriving DecidableEq, Repr

/-- Apply one operation; the second component lists the job id admitted by
the operation (empty unless it is an accepted `New Job`). -/
def applyOp (maxQueue : Nat) (db : DB) : Op → DB × List Nat
  | Op.newJob c ip req now =>
    match add_new_job maxQueue db c ip req now with
    | (db2, Reply.accepted _ i) => (db2, [i])
    | (db2, _) => (db2, [])
  | Op.terminate j => ((terminate_job db j).1, [])
  | Op.dispatchJob s cutoff =>
    match dispatch s db cutoff with
    | Except.ok (some (_, db2)) => (db2, [])
    | _ => (db, [])

/-- Run a sequence of operations, collecting the admitted job ids in
order. -/
def runOps (maxQueue : Nat) (db : DB) : List Op → DB × List Nat
  | [] => (db, [])
  | op :: rest =>
    let step := applyOp maxQueue db op
    let remaining := runOps maxQueue step.1 rest
    (remaining.1, step.2 ++ remaining.2)

/-- Helper to build a job row concisely. -/
def mkJob (id : Nat) (c : String) (p : Int) (ts : Nat) : Job :=
  { id := id, cust_name := c, cust_ip := "10.0.0.1", cust_port := 9001,
    priority := p, timestamp := ts, ports := "8080" }

/-- The store of claim C1's scenario: one waiting job at each of the
priorities 1, 2, 3 and last-7-day history counts `{3: 5, 2: 4, 1: 1}`. -/
def C1db : DB :=
  { job_queue := [mkJob 1011 "A" 1 50, mkJob 1012 "B" 2 51, mkJob 1013 "C" 3 52],
    jobs := [mkJob 1001 "A" 3 10, mkJob 1002 "A" 3 11, mkJob 1003 "B" 3 12,
             mkJob 1004 "B" 3 13, mkJob 1005 "C" 3 14, mkJob 1006 "A" 2 15,
             mkJob 1007 "B" 2 16, mkJob 1008 "C" 2 17, mkJob 1009 "A" 2 18,
             mkJob 1010 "B" 1 19],
    term_queue := [], seq := 1013 }

/-- The spec-side reformulation of `select_priority`'s scan, following the
claim's words: a priority is under weight when its observed frequency is
strictly below its fixed weight. -/
def spec_under_weight (f : Int → ℚ) (wt : Int → Option ℚ) (p : Int) : Bool :=
  match wt p with
  | some w => decide (f p < w)
  | none => false

lemma select_priority_go_cons (full : List Int) (f : Int → ℚ)
    (wt : Int → Option ℚ) (p : Int) (rest : List Int) :
    select_priority_go full f wt (p :: rest) =
      match wt p with
      | none => Except.error ()
      | some w =>
        if f p < w then Except.ok p
        else
          match rest with
          | [] =>
            match full with
            | [] => Except.error ()
            | q :: _ => Except.ok q
          | _ :: _ => select_priority_go full f wt rest := rfl

lemma select_priority_go_eq (full : List Int) (f : Int → ℚ)
    (wt : Int → Option ℚ) :
    ∀ s : List Int, s ≠ [] → full ≠ [] →
      (∀ p ∈ s, (wt p).isSome) →
      select_priority_go full f wt s =
        Except.ok ((s.find? (spec_under_weight f wt)).getD (full.headD 0)) := by
  intro s
  induction s with
  | nil => intro h; exact absurd rfl h
  | cons p rest ih =>
    intro _ hfull hw
    have hp : (wt p).isSome := hw p (List.mem_cons_self _ _)
    rcases Option.isSome_iff_exists.mp hp with ⟨w, hwp⟩
    rw [select_priority_go_cons, hwp]
    dsimp only
    by_cases hlt : f p < w
    · rw [if_pos hlt]
      have hfind : spec_under_weight f wt p = true := by
        rw [spec_under_weight, hwp]
        exact decide_eq_true hlt
      rw [List.find?_cons_of_pos _ hfind]
      rfl
    · rw [if_neg hlt]
      have hfind : spec_under_weight f wt p = false := by
        rw [spec_under_weight, hwp]
        exact decide_eq_false hlt
      rw [List.find?_cons_of_neg _ (by simp [hfind])]
      match rest, ih with
      | [], _ =>
        match full, hfull with
        | q :: _, _ => rfl
      | r :: rs, ih =>
        exact ih (by simp) hfull (fun x hx => hw x (List.mem_cons_of_mem _ hx))

/-- C1, counterexample to the claim's concrete instance: with one waiting
job at each priority and 7-day history counts `{3: 5, 2: 4, 1: 1}`
(frequencies `1/2, 2/5, 1/10`), `get_next_priority` returns priority 1,
not 2: priority 2's observed frequency `0.40` is not strictly below its
weight `0.35`, while priority 1's `0.10` is below `0.15`. -/
theorem C1_example_selects_priority_one :
    get_next_priority C1db 0 = Except.ok 1 ∧
    get_next_priority C1db 0 ≠ Except.ok 2 := by
  have h : get_next_priority C1db 0 = Except.ok 1 := by
    norm_num [get_next_priority, select_priority, select_priority_go,
      waitingPrioritiesDesc, priorityFreq, histCountPriority, histTotal,
      recentJobs, C1db, mkJob, sortDesc, insertDesc, priority_weighted,
      List.dedup]
  refine ⟨h, ?_⟩
  rw [h]
  intro hc
  exact absurd (Except.ok.inj hc) (by decide)

/-- C1, general rule (amended: the instance above selects 1, not 2): for
strategies 2 and 3, when every waiting priority has an entry in the weight
table, `get_next_priority` returns the first priority in the descending
order of the distinct waiting priorities whose observed 7-day frequency is
strictly below its fixed weight, and the highest waiting priority when no
priority is below its weight. -/
theorem C1_next_priority_first_below_weight (db : DB) (cutoff : Nat)
    (hne : waitingPrioritiesDesc db ≠ [])
    (hw : ∀ p ∈ waitingPrioritiesDesc db, (priority_weighted p).isSome) :
    get_next_priority db cutoff =
      Except.ok (((waitingPrioritiesDesc db).find?
          (spec_under_weight (priorityFreq db cutoff) priority_weighted)).getD
        ((waitingPrioritiesDesc db).headD 0)) :=
  select_priority_go_eq (waitingPrioritiesDesc db) (priorityFreq db cutoff)
    priority_weighted (waitingPrioritiesDesc db) hne hne hw

/-- C1 witness: the general rule applied to the concrete store `C1db`. -/
theorem C1_next_priority_first_below_weight_witness :
    waitingPrioritiesDesc C1db ≠ [] ∧
    (∀ p ∈ waitingPrioritiesDesc C1db, (priority_weighted p).isSome) ∧
    get_next_priority C1db 0 =
      Except.ok (((waitingPrioritiesDesc C1db).find?
          (spec_under_weight (priorityFreq C1db 0) priority_weighted)).getD
        ((waitingPrioritiesDesc C1db).headD 0)) :=
  ⟨by decide, by decide,
   C1_next_priority_first_below_weight C1db 0 (by decide) (by decide)⟩

/-- Ten waiting jobs (ids 1001-1010) with `seq = 1010`: the state claim
C2's scenario reaches after ten admissions into a fresh store. -/
def C2db : DB :=
  { job_queue := [mkJob 1001 "A" 1 1, mkJob 1002 "A" 1 2, mkJob 1003 "A" 1 3,
                  mkJob 1004 "A" 1 4, mkJob 1005 "A" 1 5, mkJob 1006 "A" 1 6,
                  mkJob 1007 "A" 1 7, mkJob 1008 "A" 1 8, mkJob 1009 "A" 1 9,
                  mkJob 1010 "A" 1 10],
    jobs := [], term_queue := [], seq := 1010 }

/-- C2 (amended: a request is refused exactly when the waiting-queue size
strictly exceeds `MAX_QUEUE`; with 10 waiting jobs and `MAX_QUEUE = 10`
the next request is still accepted, so the refusal first hits the request
that sees 11 waiting rows): `add_new_job` refuses with
`No space in job queue` iff the queue size exceeds `MAX_QUEUE`, inserts
one row with id `seq + 1` and acknowledges `Accepted` otherwise, and
leaves the store untouched when it refuses. -/
theorem C2_refusal_iff_queue_exceeds_max (maxQueue : Nat) (db : DB)
    (client ip : String) (req : NewJobRequest) (now : Nat) :
    ((add_new_job maxQueue db client ip req now).2 =
        Reply.refused "No space in job queue" ↔
      maxQueue < db.job_queue.length) ∧
    (db.job_queue.length ≤ maxQueue →
      (add_new_job maxQueue db client ip req now).2 =
        Reply.accepted "Start" (db.seq + 1) ∧
      (add_new_job maxQueue db client ip req now).1.job_queue =
        db.job_queue ++
          [{ id := db.seq + 1, cust_name := client, cust_ip := ip,
             cust_port := req.commsPort, priority := req.priority,
             timestamp := now, ports := req.ports }]) ∧
    (maxQueue < db.job_queue.length →
      (add_new_job maxQueue db client ip req now).1 = db) := by
  by_cases h : db.job_queue.length ≤ maxQueue
  · refine ⟨⟨fun hr => ?_, fun hc => absurd hc (not_lt.mpr h)⟩,
      fun _ => ⟨?_, ?_⟩, fun hc => absurd hc (not_lt.mpr h)⟩
    · simp [add_new_job, h] at hr
    · simp [add_new_job, h]
    · simp [add_new_job, h]
  · refine ⟨⟨fun _ => not_le.mp h, fun _ => ?_⟩,
      fun hc => absurd hc h, fun _ => ?_⟩
    · simp [add_new_job, h]
    · simp [add_new_job, h]

/-- C2 witness: the dichotomy applied at a queue holding 10 rows with
`MAX_QUEUE = 10`: the request is accepted. -/
theorem C2_refusal_iff_queue_exceeds_max_witness :
    C2db.job_queue.length ≤ 10 ∧
    (add_new_job 10 C2db "K" "10.0.0.2" ⟨1, "80", 9002⟩ 99).2 =
      Reply.accepted "Start" (C2db.seq + 1) := by
  refine ⟨by decide, ?_⟩
  exact ((C2_refusal_iff_queue_exceeds_max 10 C2db "K" "10.0.0.2"
    ⟨1, "80", 9002⟩ 99).2.1 (by decide)).1

/-- C2, counterexample to the claim's concrete instance: with 10 jobs
already waiting and `MAX_QUEUE = 10`, the 11th `New Job` request is
accepted (`q_len <= MAX_QUEUE` holds at 10), an 11th row is inserted, and
no refusal is sent. -/
theorem C2_eleventh_request_accepted :
    (add_new_job 10 C2db "K" "10.0.0.2" ⟨1, "80", 9002⟩ 99).2 =
      Reply.accepted "Start" 1011 ∧
    (add_new_job 10 C2db "K" "10.0.0.2" ⟨1, "80", 9002⟩ 99).1.job_queue.length = 11 ∧
    (add_new_job 10 C2db "K" "10.0.0.2" ⟨1, "80", 9002⟩ 99).2 ≠
      Reply.refused "No space in job queue" := by decide

lemma randint_range (lower upper seed : Nat) (h : lower ≤ upper) :
    lower ≤ randint lower upper seed ∧ randint lower upper seed ≤ upper := by
  unfold randint
  have hpos : 0 < upper + 1 - lower := by omega
  have hm := Nat.mod_lt seed hpos
  omega

lemma py_any_false (port : Nat) (used : List String) :
    used.any (py_eq_int_str port) = false := by
  simp [py_eq_int_str]

lemma get_free_ports_go_used_irrelevant (lower upper num : Nat)
    (stream : Nat → Nat) :
    ∀ (fuel i : Nat) (acc : List Nat) (used used2 : List String),
      get_free_ports_go lower upper used num stream fuel i acc =
        get_free_ports_go lower upper used2 num stream fuel i acc := by
  intro fuel
  induction fuel with
  | zero =>
    intro i acc used used2
    rfl
  | succ fuel ih =>
    intro i acc used used2
    rw [get_free_ports_go, get_free_ports_go]
    by_cases hl : acc.length < num
    · rw [if_pos hl, if_pos hl]
      have h1 : ¬ (used.any (py_eq_int_str (randint lower upper (stream i)))
          = true) := by
        rw [py_any_false]
        simp
      have h2 : ¬ (used2.any (py_eq_int_str (randint lower upper (stream i)))
          = true) := by
        rw [py_any_false]
        simp
      rw [if_neg h1, if_neg h2]
      exact ih (i + 1) (acc ++ [randint lower upper (stream i)]) used used2
    · rw [if_neg hl, if_neg hl]

lemma get_free_ports_go_spec (lower upper : Nat) (used : List String)
    (num : Nat) (stream : Nat → Nat) (hlu : lower ≤ upper) :
    ∀ (fuel i : Nat) (acc res : List Nat),
      get_free_ports_go lower upper used num stream fuel i acc = some res →
      (∀ q ∈ res, q ∈ acc ∨ (lower ≤ q ∧ q ≤ upper)) ∧
      (acc.length ≤ num → res.length = num) := by
  intro fuel
  induction fuel with
  | zero =>
    intro i acc res h
    rw [get_free_ports_go] at h
    by_cases hl : acc.length < num
    · rw [if_pos hl] at h; cases h
    · rw [if_neg hl] at h
      have hacc := Option.some.inj h
      subst hacc
      exact ⟨fun q hq => Or.inl hq, fun hle => by omega⟩
  | succ fuel ih =>
    intro i acc res h
    rw [get_free_ports_go] at h
    by_cases hl : acc.length < num
    · rw [if_pos hl] at h
      have hin : ¬ (used.any (py_eq_int_str (randint lower upper (stream i)))
          = true) := by
        rw [py_any_false]
        simp
      rw [if_neg hin] at h
      have hr := randint_range lower upper (stream i) hlu
      rcases ih (i + 1) (acc ++ [randint lower upper (stream i)]) res h
        with ⟨hmem, hlen⟩
      refine ⟨fun q hq => ?_, fun _ => hlen (by simp; omega)⟩
      rcases hmem q hq with hq2 | hq2
      · rcases List.mem_append.mp hq2 with hq3 | hq3
        · exact Or.inl hq3
        · have hq4 : q = randint lower upper (stream i) := by
            simpa using hq3
          subst hq4
          exact Or.inr ⟨hr.1, hr.2⟩
      · exact Or.inr hq2
    · rw [if_neg hl] at h
      have hacc := Option.some.inj h
      subst hacc
      exact ⟨fun q hq => Or.inl hq, fun hle => by omega⟩

/-- C3 (amended: for every dispatch the port map is built by splitting
`requested_ports` on commas and appending `"22"`, and every allocated
host port lies within `[PORT_RANGE_LOWER, PORT_RANGE_UPPER]` — but
neither claimed exclusion holds.  The sampler never compares a draw
against the ports it already picked in the same allocation, so the host
ports need not be pairwise distinct; and the used-port exclusion is a
no-op, because `get_used_ports` yields string `HostPort` values while the
draw is an int and Python's `==` between them is always false — the
allocation result does not depend on the used-port list at all, so ports
bound by running containers can be handed out again): whenever
`map_ports` returns a port map, its keys are exactly the comma split
plus `"22"`, each mapped host port is in range, and the same map is
returned for every used-port list. -/
theorem C3_ports_in_range_used_ignored (lower upper : Nat)
    (used used2 : List String) (ports : String) (stream : Nat → Nat)
    (fuel : Nat) (m : List (String × Nat)) (hlu : lower ≤ upper)
    (h : map_ports lower upper used ports stream fuel = some m) :
    m.map Prod.fst = split_comma ports ++ ["22"] ∧
    (∀ q ∈ m.map Prod.snd, lower ≤ q ∧ q ≤ upper) ∧
    map_ports lower upper used2 ports stream fuel = some m := by
  have hirr : map_ports lower upper used2 ports stream fuel =
      map_ports lower upper used ports stream fuel := by
    unfold map_ports
    dsimp only
    rw [get_free_ports, get_free_ports,
      get_free_ports_go_used_irrelevant lower upper
        (split_comma ports ++ ["22"]).length stream fuel 0 [] used2 used]
  unfold map_ports at h
  dsimp only at h
  rcases hfp : get_free_ports lower upper used
      (split_comma ports ++ ["22"]).length stream fuel with _ | free
  · rw [hfp] at h
    cases h
  · rw [hfp] at h
    dsimp only at h
    have hm := Option.some.inj h
    rcases get_free_ports_go_spec lower upper used
        (split_comma ports ++ ["22"]).length stream hlu fuel 0 [] free hfp
      with ⟨hmem, hlen⟩
    have hlen2 : free.length = (split_comma ports ++ ["22"]).length :=
      hlen (by simp)
    refine ⟨?_, ?_, ?_⟩
    · rw [← hm]
      exact List.map_fst_zip _ _ (le_of_eq hlen2.symm)
    · intro q hq
      rw [← hm, List.map_snd_zip _ _ (le_of_eq hlen2)] at hq
      rcases hmem q hq with hq2 | hq2
      · cases hq2
      · exact hq2
    · rw [hirr]
      unfold map_ports
      dsimp only
      rw [hfp]
      dsimp only
      rw [hm]

/-- C3 witness: an allocation of two ports for request `"80"` from range
`[5000, 6000]` while a running container is bound to host port 5000
(`HostPort` string `"5000"`); the result is in range, keyed by the split,
and identical to the allocation with no used ports. -/
theorem C3_ports_in_range_used_ignored_witness :
    (5000 : Nat) ≤ 6000 ∧
    map_ports 5000 6000 ["5000"] "80" (fun i => i) 4 =
      some [("80", 5000), ("22", 5001)] ∧
    ([("80", 5000), ("22", 5001)].map Prod.fst =
      split_comma "80" ++ ["22"] ∧
    (∀ q ∈ [("80", 5000), ("22", 5001)].map Prod.snd,
      5000 ≤ q ∧ q ≤ 6000) ∧
    map_ports 5000 6000 [] "80" (fun i => i) 4 =
      some [("80", 5000), ("22", 5001)]) := by
  have h : map_ports 5000 6000 ["5000"] "80" (fun i => i) 4 =
      some [("80", 5000), ("22", 5001)] := by decide
  exact ⟨by decide, h,
    C3_ports_in_range_used_ignored 5000 6000 ["5000"] [] "80" (fun i => i) 4
      [("80", 5000), ("22", 5001)] (by decide) h⟩

/-- C3, counterexample: with a running container bound to host port 5000
(string `HostPort` value `"5000"` in the used list) and a random stream
that repeatedly draws 5000, the allocation hands out host port 5000 —
twice.  This refutes both exclusions of the claim at one input: the two
container ports `"80"` and `"22"` map to the same host port, and that
host port is exactly the one the running container already binds
(`str(5000) = "5000"`), because the int-vs-str membership test never
fires. -/
theorem C3_duplicate_and_used_host_ports :
    map_ports 5000 6000 ["5000"] "80" (fun _ => 0) 3 =
      some [("80", 5000), ("22", 5000)] ∧
    ¬ (([("80", 5000), ("22", 5000)] : List (String × Nat)).map Prod.snd).Nodup ∧
    toString (5000 : Nat) = "5000" := by
  refine ⟨by decide, by decide, by decide⟩

/-- The claim's idleness condition for a container of the second sample,
following the claim's words: when present in both samples its percentage
is `(Δtotal / Δsystem) × 100 × cpu_count` if both deltas are strictly
positive and `0` otherwise (and `0 < 10` always holds); a container
present only in the second sample counts as `100`, which is never below
`10`. -/
def spec_idle_condition (cores : Nat) (previous : List (Nat × CpuTimes))
    (i : Nat) (t : CpuTimes) : Prop :=
  match lookupStat previous i with
  | some prev =>
    if 0 < t.total - prev.total ∧ 0 < t.system - prev.system then
      (t.total - prev.total) / (t.system - prev.system) * 100 * cores < 10
    else True
  | none => False

/-- The percentage `calculate_percentages` assigns to one entry of the
current sample, factored out of the per-entry pair construction. -/
def code_pct (cores : Nat) (previous : List (Nat × CpuTimes))
    (i : Nat) (t : CpuTimes) : ℚ :=
  match lookupStat previous i with
  | some prev =>
    if 0 < t.total - prev.total ∧ 0 < t.system - prev.system then
      (t.total - prev.total) / (t.system - prev.system) * 100 * cores
    else 0
  | none => 100

lemma calculate_percentages_eq (cores : Nat)
    (current previous : List (Nat × CpuTimes)) :
    calculate_percentages cores current previous =
      current.map (fun e => (e.1, code_pct cores previous e.1 e.2)) := by
  unfold calculate_percentages code_pct
  refine List.map_congr_left (fun e he => ?_)
  rcases hlk : lookupStat previous e.1 with _ | prev
  · rfl
  · dsimp only
    by_cases hpos : 0 < e.2.total - prev.total ∧ 0 < e.2.system - prev.system
    · rw [if_pos hpos, if_pos hpos]
    · rw [if_neg hpos, if_neg hpos]

lemma spec_idle_iff_pct (cores : Nat) (previous : List (Nat × CpuTimes))
    (i : Nat) (t : CpuTimes) :
    spec_idle_condition cores previous i t ↔
      code_pct cores previous i t < 10 := by
  unfold spec_idle_condition code_pct
  rcases hlk : lookupStat previous i with _ | prev
  · dsimp only
    simp only [false_iff]
    norm_num
  · dsimp only
    by_cases hpos : 0 < t.total - prev.total ∧ 0 < t.system - prev.system
    · rw [if_pos hpos, if_pos hpos]
    · rw [if_neg hpos, if_neg hpos]
      simp only [true_iff]
      norm_num

lemma mem_check_for_idle (cores : Nat)
    (current previous : List (Nat × CpuTimes)) (i : Nat) :
    i ∈ check_for_idle_containers cores current previous ↔
      ∃ t, (i, t) ∈ current ∧ spec_idle_condition cores previous i t := by
  unfold check_for_idle_containers
  rw [calculate_percentages_eq, List.filterMap_map, List.mem_filterMap]
  constructor
  · rintro ⟨e, he, hfe⟩
    dsimp only [Function.comp] at hfe
    by_cases hlt : code_pct cores previous e.1 e.2 < 10
    · rw [if_pos hlt] at hfe
      have hie := Option.some.inj hfe
      subst hie
      exact ⟨e.2, by simpa using he,
        (spec_idle_iff_pct cores previous e.1 e.2).mpr hlt⟩
    · rw [if_neg hlt] at hfe
      cases hfe
  · rintro ⟨t, hmem, hcond⟩
    refine ⟨(i, t), hmem, ?_⟩
    dsimp only [Function.comp]
    rw [if_pos ((spec_idle_iff_pct cores previous i t).mp hcond)]

/-- C4 (confirmed): in a successful idleness scan only the containers with
uptime over 60 seconds are sampled, and the termination queue gains
exactly one `Container Idle` row per container of the second sample whose
claimed percentage — delta quotient times `100 × cores` when both deltas
are strictly positive, `0` otherwise, and `100` for a container present
only in the second sample — is strictly below 10. -/
theorem C4_idle_scan_correct (db db2 : DB) (cores : Nat)
    (cs1 cs2 : List ContainerInfo) (prevIdle : Option (List Nat))
    (idle : List Nat)
    (h : monitor_scan db cores (Except.ok (cs1, cs2)) prevIdle =
      Except.ok (db2, idle)) :
    db2.term_queue = db.term_queue ++ idle.map (fun i => (i, "Container Idle")) ∧
    (∀ i t, (i, t) ∈ get_cpu_stats cs2 ↔
      ∃ c ∈ cs2, 60 < c.uptimeSeconds ∧ c.name = i ∧ c.stats = t) ∧
    (∀ i, i ∈ idle ↔ ∃ t, (i, t) ∈ get_cpu_stats cs2 ∧
      spec_idle_condition cores (get_cpu_stats cs1) i t) := by
  unfold monitor_scan at h
  dsimp only at h
  have hpair := Except.ok.inj h
  have hdb2 : (if 0 < (check_for_idle_containers cores (get_cpu_stats cs2)
      (get_cpu_stats cs1)).length then
      queue_for_termination db (check_for_idle_containers cores
        (get_cpu_stats cs2) (get_cpu_stats cs1)) else db) = db2 :=
    congrArg Prod.fst hpair
  have hidle : check_for_idle_containers cores (get_cpu_stats cs2)
      (get_cpu_stats cs1) = idle := congrArg Prod.snd hpair
  refine ⟨?_, ?_, ?_⟩
  · rw [← hdb2, ← hidle]
    by_cases hl : 0 < (check_for_idle_containers cores (get_cpu_stats cs2)
        (get_cpu_stats cs1)).length
    · rw [if_pos hl]
      rfl
    · rw [if_neg hl]
      have hnil : check_for_idle_containers cores (get_cpu_stats cs2)
          (get_cpu_stats cs1) = [] := by
        rcases hck : check_for_idle_containers cores (get_cpu_stats cs2)
            (get_cpu_stats cs1) with _ | ⟨x, xs⟩
        · rfl
        · rw [hck] at hl; simp at hl
      rw [hnil]
      simp
  · intro i t
    unfold get_cpu_stats
    constructor
    · intro hm
      rcases List.mem_map.mp hm with ⟨c, hc, hct⟩
      rcases List.mem_filter.mp hc with ⟨hcs, hup⟩
      exact ⟨c, hcs, by simpa using hup,
        congrArg Prod.fst hct, congrArg Prod.snd hct⟩
    · rintro ⟨c, hcs, hup, hname, hstats⟩
      refine List.mem_map.mpr ⟨c, List.mem_filter.mpr ⟨hcs, by simpa using hup⟩, ?_⟩
      rw [hname, hstats]
  · intro i
    rw [← hidle]
    exact mem_check_for_idle cores (get_cpu_stats cs2) (get_cpu_stats cs1) i

/-- First CPU sample of the C4 witness scenario: one container, job id
1000, up 70 seconds, with counters `(0, 0)`. -/
def C4cs1 : List ContainerInfo := [⟨1000, 70, ⟨0, 0⟩⟩]

/-- Second CPU sample of the C4 witness scenario: the same container 10
seconds later with counters `(4, 100)`, so its percentage with 2 cores is
`4/100 × 100 × 2 = 8 < 10`. -/
def C4cs2 : List ContainerInfo := [⟨1000, 80, ⟨4, 100⟩⟩]

/-- C4 witness: the idle-scan theorem applied to a concrete scan in which
container 1000 computes percentage 8 and is enqueued as idle. -/
theorem C4_idle_scan_correct_witness :
    monitor_scan setup_db 2 (Except.ok (C4cs1, C4cs2)) none =
      Except.ok (⟨[], [], [(1000, "Container Idle")], 1000⟩, [1000]) ∧
    ((⟨[], [], [(1000, "Container Idle")], 1000⟩ : DB).term_queue =
      setup_db.term_queue ++ [1000].map (fun i => (i, "Container Idle")) ∧
    (∀ i t, (i, t) ∈ get_cpu_stats C4cs2 ↔
      ∃ c ∈ C4cs2, 60 < c.uptimeSeconds ∧ c.name = i ∧ c.stats = t) ∧
    (∀ i, i ∈ [1000] ↔ ∃ t, (i, t) ∈ get_cpu_stats C4cs2 ∧
      spec_idle_condition 2 (get_cpu_stats C4cs1) i t)) := by
  have h : monitor_scan setup_db 2 (Except.ok (C4cs1, C4cs2)) none =
      Except.ok (⟨[], [], [(1000, "Container Idle")], 1000⟩, [1000]) := by
    norm_num [monitor_scan, check_for_idle_containers, calculate_percentages,
      get_cpu_stats, lookupStat, queue_for_termination, C4cs1, C4cs2, setup_db,
      List.filterMap_cons, List.filterMap_nil]
  exact ⟨h, C4_idle_scan_correct setup_db _ 2 C4cs1 C4cs2 none [1000] h⟩

/-- The first port map allocated for the C5 scenario. -/
def C5pm1 : List (String × Nat) := [("8080", 5000), ("22", 5001)]

/-- The re-allocated port map of the C5 scenario. -/
def C5pm2 : List (String × Nat) := [("8080", 5002), ("22", 5003)]

/-- C5, counterexample: both `containers.run` attempts raise `APIError`,
and the hypothetical rebuilt-handle retry with the same port map would
even have succeeded (`RunResult.ok 1000`) — yet the job is abandoned
after only two attempts, `[pm1, pm2]`, never `[pm1, pm1, pm2]`: the code
performs no retry with the same port map, because `start_container`
catches the `APIError` itself and the `except` arm of `start_job` is
unreachable. -/
theorem C5_no_same_portmap_retry :
    start_job_launch setup_db RunResult.apiError (RunResult.ok 1000)
        RunResult.apiError C5pm1 C5pm2 =
      { db := setup_db, container := none, notified := false,
        loggedUnable := true, attemptPorts := [C5pm1, C5pm2] } ∧
    [C5pm1, C5pm2] ≠ [C5pm1, C5pm1, C5pm2] := by
  exact ⟨rfl, by decide⟩

/-- C5 (amended: when `containers.run` raises `APIError` during dispatch,
`start_container` catches it and returns `None`, so the rebuild-handle
retry with the same port map in `start_job` is dead code; the scheduler
immediately re-allocates ports and retries once, and if that also fails
it abandons the job — logging `Unable to start the job`, leaving the
store untouched (no re-enqueue) and sending no notification): the launch
outcome never depends on what the same-port-map retry would return, a
first failure is followed by exactly one retry with the re-allocated
ports, and a double failure abandons silently. -/
theorem C5_retry_ladder_two_attempts (db : DB) (r1 a b r2 : RunResult)
    (pm1 pm2 : List (String × Nat)) :
    (start_job_launch db r1 a r2 pm1 pm2 =
      start_job_launch db r1 b r2 pm1 pm2) ∧
    (r1 = RunResult.apiError → r2 = RunResult.apiError →
      start_job_launch db r1 a r2 pm1 pm2 =
        { db := db, container := none, notified := false,
          loggedUnable := true, attemptPorts := [pm1, pm2] }) ∧
    (∀ c, r1 = RunResult.apiError → r2 = RunResult.ok c →
      start_job_launch db r1 a r2 pm1 pm2 =
        { db := db, container := some c, notified := true,
          loggedUnable := false, attemptPorts := [pm1, pm2] }) ∧
    (∀ c, r1 = RunResult.ok c →
      start_job_launch db r1 a r2 pm1 pm2 =
        { db := db, container := some c, notified := true,
          loggedUnable := false, attemptPorts := [pm1] }) := by
  refine ⟨rfl, ?_, ?_, ?_⟩
  · rintro rfl rfl
    rfl
  · rintro c rfl rfl
    rfl
  · rintro c rfl
    rfl

/-- C5 witness: the ladder applied to a double failure with concrete port
maps. -/
theorem C5_retry_ladder_two_attempts_witness :
    (RunResult.apiError = RunResult.apiError) ∧
    start_job_launch setup_db RunResult.apiError RunResult.apiError
        RunResult.apiError C5pm1 C5pm2 =
      { db := setup_db, container := none, notified := false,
        loggedUnable := true, attemptPorts := [C5pm1, C5pm2] } :=
  ⟨rfl, (C5_retry_ladder_two_attempts setup_db RunResult.apiError
    RunResult.apiError RunResult.apiError RunResult.apiError
    C5pm1 C5pm2).2.1 rfl rfl⟩

/-- C6, counterexample: a sampling `APIError` in a cycle whose previous
iteration left `idle = [1001]` re-enqueues container 1001 with reason
`Container Idle`, so the cycle is not skipped cleanly: the termination
queue changes even though no sample was taken. -/
theorem C6_stale_idle_reenqueued :
    monitor_scan setup_db 4 (Except.error ()) (some [1001]) =
      Except.ok (⟨[], [], [(1001, "Container Idle")], 1000⟩, [1001]) ∧
    (⟨[], [], [(1001, "Container Idle")], 1000⟩ : DB).term_queue ≠
      setup_db.term_queue := by
  exact ⟨rfl, by decide⟩

/-- C6 (amended: on a runtime-API error during sampling the Docker handle
is rebuilt and no new sample is computed, but the loop then re-reads the
stale `idle` variable: the previous cycle's idle list is enqueued again,
and on the very first cycle the variable is unbound and the monitor
thread dies with `NameError`): the error branch of one scan iteration
re-enqueues exactly the previous `idle` list (reason `Container Idle`)
and crashes when there is no previous value. -/
theorem C6_api_error_behaviour (db : DB) (cores : Nat) (l : List Nat) :
    monitor_scan db cores (Except.error ()) (some l) =
      Except.ok
        ((if 0 < l.length then queue_for_termination db l else db), l) ∧
    monitor_scan db cores (Except.error ()) none = Except.error () ∧
    (queue_for_termination db l).term_queue =
      db.term_queue ++ l.map (fun i => (i, "Container Idle")) :=
  ⟨rfl, rfl, rfl⟩

lemma minByTimestamp_mem (l : List Job) (j : Job)
    (h : minByTimestamp l = some j) : j ∈ l := by
  cases l with
  | nil => cases h
  | cons x xs =>
    have hj := Option.some.inj h
    rcases pickMinBy_mem Job.timestamp xs x with h2 | h2
    · rw [← hj, h2]
      exact List.mem_cons_self _ _
    · rw [← hj]
      exact List.mem_cons_of_mem _ h2

lemma minByTimestamp_le (l : List Job) (j : Job)
    (h : minByTimestamp l = some j) :
    ∀ j2 ∈ l, j.timestamp ≤ j2.timestamp := by
  cases l with
  | nil => cases h
  | cons x xs =>
    have hj := Option.some.inj h
    intro j2 hj2
    rw [← hj]
    rcases List.mem_cons.mp hj2 with hx | hj2
    · exact pickMinBy_le Job.timestamp xs x j2 (Or.inl hx)
    · exact pickMinBy_le Job.timestamp xs x j2 (Or.inr hj2)

/-- The store of claim C7's scenario: clients A, B, C with one waiting
priority-1 job each (timestamps 10, 11, 12) and 7-day history counts
`{A: 5, B: 2, C: 3}`. -/
def C7db : DB :=
  { job_queue := [mkJob 1014 "A" 1 10, mkJob 1015 "B" 1 11, mkJob 1016 "C" 1 12],
    jobs := [mkJob 1001 "A" 1 1, mkJob 1002 "A" 1 2, mkJob 1003 "A" 1 3,
             mkJob 1004 "A" 1 4, mkJob 1005 "A" 1 5, mkJob 1006 "B" 1 6,
             mkJob 1007 "B" 1 7, mkJob 1008 "C" 1 8, mkJob 1009 "C" 1 9,
             mkJob 1010 "C" 1 10],
    term_queue := [], seq := 1016 }

/-- C7 (confirmed): under strategy 1 the scheduler picks a waiting client
whose last-7-day history count is minimal among the distinct waiting
clients, and dispatches that client's oldest waiting row (moving it to
history); on the concrete workload `{A: 5, B: 2, C: 3}` with one waiting
job per client, the dispatched job is B's. -/
theorem C7_strategy1_fewest_history_client (db : DB) (cutoff : Nat)
    (hne : db.job_queue ≠ []) :
    (∃ c j db2, get_next_client db cutoff = some c ∧
      c ∈ db.job_queue.map Job.cust_name ∧
      (∀ d ∈ db.job_queue.map Job.cust_name,
        histCountClient db cutoff c ≤ histCountClient db cutoff d) ∧
      get_next_job_clients db cutoff = some (j, db2) ∧
      j ∈ db.job_queue ∧ j.cust_name = c ∧
      (∀ j2 ∈ db.job_queue, j2.cust_name = c → j.timestamp ≤ j2.timestamp) ∧
      db2 = moveToHistory db j.id) ∧
    get_next_job_clients C7db 0 =
      some (mkJob 1015 "B" 1 11, moveToHistory C7db 1015) := by
  constructor
  · have hmapne : db.job_queue.map Job.cust_name ≠ [] := by
      intro hc
      exact hne (List.map_eq_nil_iff.mp hc)
    have hwcne : waitingClients db ≠ [] := by
      intro hc
      exact hmapne ((List.dedup_eq_nil _).mp hc)
    rcases hwc : waitingClients db with _ | ⟨c0, rest⟩
    · exact absurd hwc hwcne
    set c := pickMinBy (histCountClient db cutoff) c0 rest with hcdef
    have hclient : get_next_client db cutoff = some c := by
      rw [get_next_client, hwc]
    have hcmemwc : c ∈ waitingClients db := by
      rw [hwc]
      rcases pickMinBy_mem (histCountClient db cutoff) rest c0 with h2 | h2
      · rw [← hcdef] at h2
        rw [h2]
        exact List.mem_cons_self _ _
      · rw [← hcdef] at h2
        exact List.mem_cons_of_mem _ h2
    have hcmem : c ∈ db.job_queue.map Job.cust_name :=
      List.mem_dedup.mp hcmemwc
    have hcmin : ∀ d ∈ db.job_queue.map Job.cust_name,
        histCountClient db cutoff c ≤ histCountClient db cutoff d := by
      intro d hd
      have hd2 : d ∈ waitingClients db := List.mem_dedup.mpr hd
      rw [hwc] at hd2
      rcases List.mem_cons.mp hd2 with hd3 | hd3
      · exact pickMinBy_le (histCountClient db cutoff) rest c0 d (Or.inl hd3)
      · exact pickMinBy_le (histCountClient db cutoff) rest c0 d (Or.inr hd3)
    have hflne : db.job_queue.filter (fun j => j.cust_name == c) ≠ [] := by
      rcases List.mem_map.mp hcmem with ⟨j0, hj0, hj0c⟩
      intro hc
      have : j0 ∈ db.job_queue.filter (fun j => j.cust_name == c) :=
        List.mem_filter.mpr ⟨hj0, by rw [hj0c]; exact beq_self_eq_true c⟩
      rw [hc] at this
      cases this
    rcases hmt : minByTimestamp (db.job_queue.filter (fun j => j.cust_name == c))
      with _ | j
    · rcases hfl : db.job_queue.filter (fun j => j.cust_name == c) with _ | ⟨x, xs⟩
      · exact absurd hfl hflne
      · rw [hfl] at hmt
        cases hmt
    have hjf : j ∈ db.job_queue.filter (fun j => j.cust_name == c) :=
      minByTimestamp_mem _ _ hmt
    have hjq : j ∈ db.job_queue := (List.mem_filter.mp hjf).1
    have hjc : j.cust_name = c := by
      have := (List.mem_filter.mp hjf).2
      exact eq_of_beq this
    refine ⟨c, j, moveToHistory db j.id, hclient, hcmem, hcmin, ?_, hjq, hjc, ?_, rfl⟩
    · rw [get_next_job_clients, hclient]
      dsimp only
      rw [hmt]
    · intro j2 hj2 hj2c
      exact minByTimestamp_le _ _ hmt j2
        (List.mem_filter.mpr ⟨hj2, by rw [hj2c]; exact beq_self_eq_true c⟩)
  · rfl

/-- C7 witness: the strategy-1 theorem applied to the store of the claim's
workload. -/
theorem C7_strategy1_fewest_history_client_witness :
    C7db.job_queue ≠ [] ∧
    (∃ c j db2, get_next_client C7db 0 = some c ∧
      c ∈ C7db.job_queue.map Job.cust_name ∧
      (∀ d ∈ C7db.job_queue.map Job.cust_name,
        histCountClient C7db 0 c ≤ histCountClient C7db 0 d) ∧
      get_next_job_clients C7db 0 = some (j, db2) ∧
      j ∈ C7db.job_queue ∧ j.cust_name = c ∧
      (∀ j2 ∈ C7db.job_queue, j2.cust_name = c → j.timestamp ≤ j2.timestamp) ∧
      db2 = moveToHistory C7db j.id) :=
  ⟨by decide, (C7_strategy1_fewest_history_client C7db 0 (by decide)).1⟩

lemma get_next_job_mem (db : DB) (j : Job) (db2 : DB)
    (h : get_next_job db = some (j, db2)) : j ∈ db.job_queue := by
  unfold get_next_job at h
  rcases hmt : minByTimestamp db.job_queue with _ | j0
  · rw [hmt] at h
    cases h
  · rw [hmt] at h
    dsimp only at h
    have hp := Option.some.inj h
    have hj : j0 = j := congrArg Prod.fst hp
    rw [← hj]
    exact minByTimestamp_mem _ _ hmt

lemma get_next_job_clients_mem (db : DB) (cutoff : Nat) (j : Job) (db2 : DB)
    (h : get_next_job_clients db cutoff = some (j, db2)) : j ∈ db.job_queue := by
  unfold get_next_job_clients at h
  rcases hc : get_next_client db cutoff with _ | c
  · rw [hc] at h
    cases h
  · rw [hc] at h
    dsimp only at h
    rcases hmt : minByTimestamp (db.job_queue.filter (fun j => j.cust_name == c))
      with _ | j0
    · rw [hmt] at h
      cases h
    · rw [hmt] at h
      dsimp only at h
      have hp := Option.some.inj h
      have hj : j0 = j := congrArg Prod.fst hp
      rw [← hj]
      exact (List.mem_filter.mp (minByTimestamp_mem _ _ hmt)).1

lemma get_next_job_priority_mem (db : DB) (cutoff : Nat) (j : Job) (db2 : DB)
    (h : get_next_job_priority db cutoff = Except.ok (some (j, db2))) :
    j ∈ db.job_queue := by
  unfold get_next_job_priority at h
  rcases hp : get_next_priority db cutoff with e | p
  · rw [hp] at h
    cases h
  · rw [hp] at h
    dsimp only at h
    have ho := Except.ok.inj h
    rcases hmt : minByTimestamp (db.job_queue.filter (fun j => j.priority == p))
      with _ | j0
    · rw [hmt] at ho
      cases ho
    · rw [hmt] at ho
      have hpr := Option.some.inj ho
      have hj : j0 = j := congrArg Prod.fst hpr
      rw [← hj]
      exact (List.mem_filter.mp (minByTimestamp_mem _ _ hmt)).1

lemma get_next_job_priority_client_mem (db : DB) (cutoff : Nat) (j : Job)
    (db2 : DB)
    (h : get_next_job_priority_client db cutoff = Except.ok (some (j, db2))) :
    j ∈ db.job_queue := by
  unfold get_next_job_priority_client at h
  rcases hcp : get_next_client_priority db cutoff with e | o
  · rw [hcp] at h
    cases h
  · rw [hcp] at h
    rcases o with _ | ⟨c, p⟩
    · dsimp only at h
      have ho := Except.ok.inj h
      cases ho
    · dsimp only at h
      have ho := Except.ok.inj h
      rcases hmt : minByTimestamp (db.job_queue.filter
          (fun j => j.cust_name == c && j.priority == p)) with _ | j0
      · rw [hmt] at ho
        cases ho
      · rw [hmt] at ho
        have hpr := Option.some.inj ho
        have hj : j0 = j := congrArg Prod.fst hpr
        rw [← hj]
        exact (List.mem_filter.mp (minByTimestamp_mem _ _ hmt)).1

lemma dispatch_mem (strategy cutoff : Nat) (db : DB) (j : Job) (db2 : DB)
    (h : dispatch strategy db cutoff = Except.ok (some (j, db2))) :
    j ∈ db.job_queue := by
  unfold dispatch at h
  by_cases h0 : strategy = 0
  · rw [if_pos h0] at h
    exact get_next_job_mem db j db2 (Except.ok.inj h)
  · rw [if_neg h0] at h
    by_cases h1 : strategy = 1
    · rw [if_pos h1] at h
      exact get_next_job_clients_mem db cutoff j db2 (Except.ok.inj h)
    · rw [if_neg h1] at h
      by_cases h2 : strategy = 2
      · rw [if_pos h2] at h
        exact get_next_job_priority_mem db cutoff j db2 h
      · rw [if_neg h2] at h
        exact get_next_job_priority_client_mem db cutoff j db2 h

/-- C8 (confirmed): a `Terminate` request observes exactly one of two
outcomes.  When the id still has a waiting row, the row is deleted, the
termination queue is untouched and the reply is
`{"Msg":"Terminated","JobId":id,"Reason":"Termination Requested"}`; when
it has none, the id goes into the termination queue with reason
`Termination Requested` and the reply is
`{"Msg":"Accepted","RequestType":"Terminate","JobID":id}`.  No reply
matches both shapes, and every scheduler dispatch picks a job from the
waiting queue, so once the id is absent from the waiting queue no
container is ever launched for it. -/
theorem C8_terminate_dichotomy (db : DB) (job_id : Nat) :
    (job_id ∈ db.job_queue.map Job.id →
      (terminate_job db job_id).2 =
        Reply.terminated job_id "Termination Requested" ∧
      (terminate_job db job_id).1.term_queue = db.term_queue ∧
      job_id ∉ (terminate_job db job_id).1.job_queue.map Job.id) ∧
    (job_id ∉ db.job_queue.map Job.id →
      (terminate_job db job_id).2 = Reply.accepted "Terminate" job_id ∧
      (terminate_job db job_id).1.job_queue = db.job_queue ∧
      (terminate_job db job_id).1.term_queue =
        db.term_queue ++ [(job_id, "Termination Requested")]) ∧
    ((terminate_job db job_id).2 ≠
        Reply.terminated job_id "Termination Requested" ∨
      (terminate_job db job_id).2 ≠ Reply.accepted "Terminate" job_id) ∧
    (∀ strategy cutoff db1 j db2, job_id ∉ db1.job_queue.map Job.id →
      dispatch strategy db1 cutoff = Except.ok (some (j, db2)) →
      j.id ≠ job_id) := by
  refine ⟨?_, ?_, ?_, ?_⟩
  · intro hin
    rcases List.mem_map.mp hin with ⟨j0, hj0, hid⟩
    have hc : 0 < db.job_queue.countP (fun j => j.id == job_id) :=
      List.countP_pos_iff.mpr ⟨j0, hj0, by rw [hid]; exact beq_self_eq_true job_id⟩
    refine ⟨by simp [terminate_job, hc], by simp [terminate_job, hc], ?_⟩
    intro hmem
    simp only [terminate_job, hc, if_pos] at hmem
    rcases List.mem_map.mp hmem with ⟨j1, hj1, hid1⟩
    have hne := (List.mem_filter.mp hj1).2
    rw [bne_iff_ne] at hne
    exact hne hid1
  · intro hout
    have hc : ¬ 0 < db.job_queue.countP (fun j => j.id == job_id) := by
      intro hc
      rcases List.countP_pos_iff.mp hc with ⟨j0, hj0, hp⟩
      exact hout (List.mem_map.mpr ⟨j0, hj0, eq_of_beq hp⟩)
    exact ⟨by simp [terminate_job, hc], by simp [terminate_job, hc],
      by simp [terminate_job, hc]⟩
  · by_cases hterm : (terminate_job db job_id).2 =
        Reply.terminated job_id "Termination Requested"
    · right
      rw [hterm]
      intro hc
      cases hc
    · exact Or.inl hterm
  · intro strategy cutoff db1 j db2 hout hd hid
    exact hout (List.mem_map.mpr ⟨j, dispatch_mem strategy cutoff db1 j db2 hd, hid⟩)

/-- C8 witness: the dichotomy applied at the ten-job store for the waiting
id 1001 and the absent id 2000. -/
theorem C8_terminate_dichotomy_witness :
    (1001 ∈ C2db.job_queue.map Job.id ∧
      (terminate_job C2db 1001).2 =
        Reply.terminated 1001 "Termination Requested" ∧
      1001 ∉ (terminate_job C2db 1001).1.job_queue.map Job.id) ∧
    (2000 ∉ C2db.job_queue.map Job.id ∧
      (terminate_job C2db 2000).2 = Reply.accepted "Terminate" 2000) := by
  refine ⟨⟨by decide, ?_, ?_⟩, ⟨by decide, ?_⟩⟩
  · exact ((C8_terminate_dichotomy C2db 1001).1 (by decide)).1
  · exact ((C8_terminate_dichotomy C2db 1001).1 (by decide)).2.2
  · exact ((C8_terminate_dichotomy C2db 2000).2.1 (by decide)).1

lemma terminate_job_seq (db : DB) (j : Nat) :
    (terminate_job db j).1.seq = db.seq := by
  unfold terminate_job
  by_cases hc : 0 < db.job_queue.countP (fun x => x.id == j)
  · simp [hc]
  · simp [hc]

lemma dispatch_seq (s cutoff : Nat) (db : DB) (j : Job) (db2 : DB)
    (h : dispatch s db cutoff = Except.ok (some (j, db2))) :
    db2.seq = db.seq := by
  unfold dispatch at h
  by_cases h0 : s = 0
  · rw [if_pos h0] at h
    have ho := Except.ok.inj h
    unfold get_next_job at ho
    rcases hmt : minByTimestamp db.job_queue with _ | j0
    · rw [hmt] at ho
      cases ho
    · rw [hmt] at ho
      have hp := Option.some.inj ho
      have hsnd : moveToHistory db j0.id = db2 := congrArg Prod.snd hp
      rw [← hsnd]
      rfl
  · rw [if_neg h0] at h
    by_cases h1 : s = 1
    · rw [if_pos h1] at h
      have ho := Except.ok.inj h
      unfold get_next_job_clients at ho
      rcases hc : get_next_client db cutoff with _ | c
      · rw [hc] at ho
        cases ho
      · rw [hc] at ho
        dsimp only at ho
        rcases hmt : minByTimestamp (db.job_queue.filter
            (fun j => j.cust_name == c)) with _ | j0
        · rw [hmt] at ho
          cases ho
        · rw [hmt] at ho
          have hp := Option.some.inj ho
          have hsnd : moveToHistory db j0.id = db2 := congrArg Prod.snd hp
          rw [← hsnd]
          rfl
    · rw [if_neg h1] at h
      by_cases h2 : s = 2
      · rw [if_pos h2] at h
        unfold get_next_job_priority at h
        rcases hp : get_next_priority db cutoff with e | p
        · rw [hp] at h
          cases h
        · rw [hp] at h
          dsimp only at h
          have ho := Except.ok.inj h
          rcases hmt : minByTimestamp (db.job_queue.filter
              (fun j => j.priority == p)) with _ | j0
          · rw [hmt] at ho
            cases ho
          · rw [hmt] at ho
            have hpr := Option.some.inj ho
            have hsnd : moveToHistory db j0.id = db2 := congrArg Prod.snd hpr
            rw [← hsnd]
            rfl
      · rw [if_neg h2] at h
        unfold get_next_job_priority_client at h
        rcases hcp : get_next_client_priority db cutoff with e | o
        · rw [hcp] at h
          cases h
        · rw [hcp] at h
          rcases o with _ | ⟨c, p⟩
          · have ho := Except.ok.inj h
            cases ho
          · dsimp only at h
            have ho := Except.ok.inj h
            rcases hmt : minByTimestamp (db.job_queue.filter
                (fun j => j.cust_name == c && j.priority == p)) with _ | j0
            · rw [hmt] at ho
              cases ho
            · rw [hmt] at ho
              have hpr := Option.some.inj ho
              have hsnd : moveToHistory db j0.id = db2 := congrArg Prod.snd hpr
              rw [← hsnd]
              rfl

lemma applyOp_step (mq : Nat) (db : DB) (op : Op) :
    ((applyOp mq db op).2 = [] ∧ (applyOp mq db op).1.seq = db.seq) ∨
    ((applyOp mq db op).2 = [db.seq + 1] ∧
      (applyOp mq db op).1.seq = db.seq + 1) := by
  cases op with
  | newJob c ip req now =>
    by_cases h : db.job_queue.length ≤ mq
    · right
      constructor
      · show (match add_new_job mq db c ip req now with
          | (db2, Reply.accepted _ i) => (db2, [i])
          | (db2, _) => (db2, [])).2 = [db.seq + 1]
        simp [add_new_job, h]
      · show (match add_new_job mq db c ip req now with
          | (db2, Reply.accepted _ i) => (db2, [i])
          | (db2, _) => (db2, [])).1.seq = db.seq + 1
        simp [add_new_job, h]
    · left
      constructor
      · show (match add_new_job mq db c ip req now with
          | (db2, Reply.accepted _ i) => (db2, [i])
          | (db2, _) => (db2, [])).2 = []
        simp [add_new_job, h]
      · show (match add_new_job mq db c ip req now with
          | (db2, Reply.accepted _ i) => (db2, [i])
          | (db2, _) => (db2, [])).1.seq = db.seq
        simp [add_new_job, h]
  | terminate j =>
    exact Or.inl ⟨rfl, terminate_job_seq db j⟩
  | dispatchJob s cutoff =>
    left
    rcases hd : dispatch s db cutoff with e | o
    · constructor
      · show (match dispatch s db cutoff with
          | Except.ok (some (_, db2)) => (db2, ([] : List Nat))
          | _ => (db, [])).2 = []
        rw [hd]
      · show (match dispatch s db cutoff with
          | Except.ok (some (_, db2)) => (db2, ([] : List Nat))
          | _ => (db, [])).1.seq = db.seq
        rw [hd]
    · rcases o with _ | ⟨j, db2⟩
      · constructor
        · show (match dispatch s db cutoff with
            | Except.ok (some (_, db2)) => (db2, ([] : List Nat))
            | _ => (db, [])).2 = []
          rw [hd]
        · show (match dispatch s db cutoff with
            | Except.ok (some (_, db2)) => (db2, ([] : List Nat))
            | _ => (db, [])).1.seq = db.seq
          rw [hd]
      · constructor
        · show (match dispatch s db cutoff with
            | Except.ok (some (_, db2)) => (db2, ([] : List Nat))
            | _ => (db, [])).2 = []
          rw [hd]
        · show (match dispatch s db cutoff with
            | Except.ok (some (_, db2)) => (db2, ([] : List Nat))
            | _ => (db, [])).1.seq = db.seq
          rw [hd]
          exact dispatch_seq s cutoff db j db2 hd

lemma runOps_ids_spec (mq : Nat) :
    ∀ (ops : List Op) (db : DB),
      List.Chain' (· < ·) (runOps mq db ops).2 ∧
      (∀ i ∈ (runOps mq db ops).2, db.seq < i) ∧
      ((runOps mq db ops).2 ≠ [] → (runOps mq db ops).2.headD 0 = db.seq + 1) ∧
      db.seq ≤ (runOps mq db ops).1.seq := by
  intro ops
  induction ops with
  | nil =>
    intro db
    exact ⟨List.chain'_nil, by simp [runOps], by simp [runOps], le_rfl⟩
  | cons op rest ih =>
    intro db
    have hids : (runOps mq db (op :: rest)).2 =
        (applyOp mq db op).2 ++ (runOps mq (applyOp mq db op).1 rest).2 := rfl
    have hdb : (runOps mq db (op :: rest)).1 =
        (runOps mq (applyOp mq db op).1 rest).1 := rfl
    rcases ih (applyOp mq db op).1 with ⟨ih1, ih2, ih3, ih4⟩
    rcases applyOp_step mq db op with ⟨h2, h1⟩ | ⟨h2, h1⟩
    · rw [h1] at ih2 ih3 ih4
      refine ⟨?_, ?_, ?_, ?_⟩
      · rw [hids, h2, List.nil_append]
        exact ih1
      · intro i hi
        rw [hids, h2, List.nil_append] at hi
        exact ih2 i hi
      · intro hne
        rw [hids, h2, List.nil_append] at hne ⊢
        exact ih3 hne
      · rw [hdb]
        exact ih4
    · rw [h1] at ih2 ih3 ih4
      refine ⟨?_, ?_, ?_, ?_⟩
      · rw [hids, h2, List.singleton_append]
        refine List.chain'_cons'.mpr ⟨?_, ih1⟩
        intro b hb
        have hbmem : b ∈ (runOps mq (applyOp mq db op).1 rest).2 :=
          List.mem_of_mem_head? hb
        exact ih2 b hbmem
      · intro i hi
        rw [hids, h2, List.singleton_append] at hi
        rcases List.mem_cons.mp hi with rfl | hi2
        · omega
        · have := ih2 i hi2
          omega
      · intro hne
        rw [hids, h2, List.singleton_append]
        rfl
      · rw [hdb]
        omega

/-- C9, counterexample to "begin at 1000": with the `SQLITE_SEQUENCE` row
seeded at 1000, SQLite AUTOINCREMENT hands the first admitted job the id
`seq + 1 = 1001`, and that id is what the first `Accepted` reply carries —
not 1000. -/
theorem C9_first_job_id_1001 :
    (runOps 10 setup_db [Op.newJob "A" "10.0.0.1" ⟨2, "8080", 9001⟩ 5]).2 =
      [1001] ∧
    (add_new_job 10 setup_db "A" "10.0.0.1" ⟨2, "8080", 9001⟩ 5).2 =
      Reply.accepted "Start" 1001 ∧
    (1001 : Nat) ≠ 1000 := by decide

/-- C9 (amended: job ids assigned to successively admitted `New Job`
requests are strictly increasing, but they begin at 1001, not 1000: the
fresh database seeds the AUTOINCREMENT sequence at 1000 and SQLite
assigns `seq + 1` to the next row): over any operation sequence from a
fresh store the admitted ids form a strictly increasing list whose
members all exceed 1000 and whose first element is 1001. -/
theorem C9_ids_strictly_increasing_from_1001 (maxQueue : Nat)
    (ops : List Op) :
    List.Chain' (· < ·) (runOps maxQueue setup_db ops).2 ∧
    (∀ i ∈ (runOps maxQueue setup_db ops).2, 1001 ≤ i) ∧
    ((runOps maxQueue setup_db ops).2 ≠ [] →
      (runOps maxQueue setup_db ops).2.headD 0 = 1001) := by
  rcases runOps_ids_spec maxQueue ops setup_db with ⟨h1, h2, h3, _⟩
  refine ⟨h1, ?_, h3⟩
  intro i hi
  have h5 : (1000 : Nat) < i := h2 i hi
  omega

/-- The single-admission operation sequence used by the C9 witness. -/
def C9ops : List Op := [Op.newJob "A" "10.0.0.1" ⟨2, "8080", 9001⟩ 5]

/-- C9 witness: the monotonicity theorem applied to one admission from a
fresh store. -/
theorem C9_ids_strictly_increasing_from_1001_witness :
    (runOps 10 setup_db C9ops).2 ≠ [] ∧
    (runOps 10 setup_db C9ops).2.headD 0 = 1001 :=
  ⟨by decide, (C9_ids_strictly_increasing_from_1001 10 C9ops).2.2 (by decide)⟩

lemma sortDesc_head_max (l : List Int) (p : Int) (hp : p ∈ l)
    (hmax : ∀ q ∈ l, q ≤ p) : ∃ t, sortDesc l = p :: t := by
  rcases hs : sortDesc l with _ | ⟨m, t⟩
  · have hmem : p ∈ sortDesc l := mem_sortDesc.mpr hp
    rw [hs] at hmem
    cases hmem
  · have hm : m ∈ l := by
      have : m ∈ sortDesc l := by
        rw [hs]
        exact List.mem_cons_self _ _
      exact mem_sortDesc.mp this
    have hple : p ≤ m := by
      have hpmem : p ∈ sortDesc l := mem_sortDesc.mpr hp
      rw [hs] at hpmem
      rcases List.mem_cons.mp hpmem with rfl | hpt
      · exact le_rfl
      · have hpw := pairwise_sortDesc l
        rw [hs] at hpw
        exact (List.pairwise_cons.mp hpw).1 p hpt
    have hmeq : m = p := le_antisymm (hmax m hm) hple
    exact ⟨t, by rw [hmeq]⟩

/-- The store of the C10 counterexample: a waiting job with the invalid
priority 0 (client X) alongside a waiting priority-3 job (client Y) and
an empty history. -/
def C10db : DB :=
  { job_queue := [mkJob 1001 "X" 0 10, mkJob 1002 "Y" 3 11],
    jobs := [], term_queue := [], seq := 1002 }

/-- The store of the C10 witness: a single waiting job with the invalid
priority 5. -/
def C10db5 : DB :=
  { job_queue := [mkJob 1001 "X" 5 10],
    jobs := [], term_queue := [], seq := 1001 }

/-- C10, counterexample to "no job can be dispatched": a job with the
invalid priority 0 is admitted without validation, yet with a priority-3
job also waiting (and its frequency 0 below its weight 0.5) the
descending scan returns priority 3 before ever reaching 0, so strategy 2
dispatches the priority-3 job — the weight-table lookup does not fail and
dispatch proceeds. -/
theorem C10_dispatch_despite_invalid_priority :
    (add_new_job 10 setup_db "X" "10.0.0.1" ⟨0, "80", 9001⟩ 10).2 =
      Reply.accepted "Start" 1001 ∧
    get_next_priority C10db 0 = Except.ok 3 ∧
    get_next_job_priority C10db 0 =
      Except.ok (some (mkJob 1002 "Y" 3 11, moveToHistory C10db 1002)) := by
  have hp : get_next_priority C10db 0 = Except.ok 3 := by
    norm_num [get_next_priority, select_priority, select_priority_go,
      waitingPrioritiesDesc, priorityFreq, histCountPriority, histTotal,
      recentJobs, C10db, mkJob, sortDesc, insertDesc, priority_weighted,
      List.dedup]
  refine ⟨by decide, hp, ?_⟩
  rw [get_next_job_priority, hp]
  rfl

/-- C10 (amended: the request handler indeed performs no validation — any
integer priority is enqueued and acknowledged `Accepted` with the
priority stored as-is — and whenever the invalid priority is the largest
waiting priority (in particular any priority above 3), the weight-table
lookup in `select_priority` raises `KeyError` on the very first scan
step, so strategies 2 and 3 dispatch nothing; but an invalid priority
smaller than a under-weight valid one is never looked up, and dispatch
proceeds). -/
theorem C10_no_validation_and_max_invalid_blocks :
    (∀ (maxQueue : Nat) (db : DB) (client ip : String)
        (req : NewJobRequest) (now : Nat),
      db.job_queue.length ≤ maxQueue →
      (add_new_job maxQueue db client ip req now).2 =
        Reply.accepted "Start" (db.seq + 1) ∧
      req.priority ∈
        (add_new_job maxQueue db client ip req now).1.job_queue.map Job.priority) ∧
    (∀ (db : DB) (cutoff : Nat) (p : Int),
      p ∈ db.job_queue.map Job.priority →
      (∀ q ∈ db.job_queue.map Job.priority, q ≤ p) →
      priority_weighted p = none →
      get_next_priority db cutoff = Except.error () ∧
      get_next_job_priority db cutoff = Except.error () ∧
      get_next_job_priority_client db cutoff = Except.error ()) := by
  constructor
  · intro maxQueue db client ip req now h
    refine ⟨by simp [add_new_job, h], ?_⟩
    simp [add_new_job, h]
  · intro db cutoff p hp hmax hwt
    have hpd : p ∈ (db.job_queue.map Job.priority).dedup :=
      List.mem_dedup.mpr hp
    have hmaxd : ∀ q ∈ (db.job_queue.map Job.priority).dedup, q ≤ p :=
      fun q hq => hmax q (List.mem_dedup.mp hq)
    rcases sortDesc_head_max _ p hpd hmaxd with ⟨t, ht⟩
    have herr : get_next_priority db cutoff = Except.error () := by
      rw [get_next_priority, select_priority, waitingPrioritiesDesc, ht,
        select_priority_go_cons, hwt]
    refine ⟨herr, ?_, ?_⟩
    · rw [get_next_job_priority, herr]
    · rw [get_next_job_priority_client, get_next_client_priority, herr]

/-- C10 witness: the blocking half applied to a store whose only waiting
job has priority 5, and the non-validation half applied to a priority-0
admission into a fresh store. -/
theorem C10_no_validation_and_max_invalid_blocks_witness :
    ((5 : Int) ∈ C10db5.job_queue.map Job.priority ∧
      (∀ q ∈ C10db5.job_queue.map Job.priority, q ≤ (5 : Int)) ∧
      priority_weighted 5 = none ∧
      get_next_priority C10db5 0 = Except.error () ∧
      get_next_job_priority C10db5 0 = Except.error ()) ∧
    (setup_db.job_queue.length ≤ 10 ∧
      (add_new_job 10 setup_db "X" "10.0.0.1" ⟨0, "80", 9001⟩ 10).2 =
        Reply.accepted "Start" (setup_db.seq + 1)) := by
  refine ⟨⟨by decide, by decide, rfl, ?_, ?_⟩, by decide, ?_⟩
  · exact (C10_no_validation_and_max_invalid_blocks.2 C10db5 0 5
      (by decide) (by decide) rfl).1
  · exact (C10_no_validation_and_max_invalid_blocks.2 C10db5 0 5
      (by decide) (by decide) rfl).2.1
  · exact (C10_no_validation_and_max_invalid_blocks.1 10 setup_db "X"
      "10.0.0.1" ⟨0, "80", 9001⟩ 10 (by decide)).1
